import Mathlib

/-!
Verification development for the tweet-trade Bluesky listener
(`listeners/bluesky/main.py`).

The listener is a single Python module.  We shallowly embed the decoded
Python/JSON values it manipulates, its roster-loading function
`fetch_subscribed_authors` (lines 25-63), and the message-dispatch and
reconnect logic of `websocket_client` (lines 66-131), and prove the
specification claims about them.

Modelling conventions:
* Decoded JSON values (the result of `json.loads` / `response.json()`) are
  the inductive `PyVal` (null, bool, int, string, list, dict).  JSON object
  keys are strings; floats do not occur in any claim and are not modelled.
* Python truthiness (`if did:`, `if author_id and post_text:`) is `truthy`.
* `d.get(k, default)` on a decoded JSON object is `objGet`.  Calling `.get`
  on a non-dict raises `AttributeError` in Python; the embedding surfaces
  every statement of the source that can raise as an explicit error case.
* The global `SUBSCRIBED_AUTHORS_DATA` dict is threaded explicitly as a
  `Roster`: an insertion-ordered association list with Python dict
  assignment semantics (assignment to an existing key overwrites the value
  in place, a new key is appended; keys stay unique).  Its keys are `PyVal`
  because the code stores whatever truthy `platform_id` value the API
  returned; lookup uses structural equality, which agrees with Python `==`
  on the string keys the system actually uses.
* Network interactions are oracles passed in as data: `FetchResult` is the
  outcome of the roster HTTP GET, `ForwardOutcome` the outcome of one
  workflow-trigger POST, and `SessionResult` the way one websocket session
  ends.  The reconnect loop (`while True`) is run against an arbitrary
  finite script of session outcomes.
-/

inductive PyVal where
  | null : PyVal
  | bool : Bool → PyVal
  | int : Int → PyVal
  | str : String → PyVal
  | list : List PyVal → PyVal
  | dict : List (String × PyVal) → PyVal

mutual
/-- Structural equality test on decoded values (used only to build the
`DecidableEq` instance, which the nested inductive cannot derive). -/
def pyBeq : PyVal → PyVal → Bool
  | .null, .null => true
  | .bool a, .bool b => a == b
  | .int a, .int b => a == b
  | .str a, .str b => a == b
  | .list xs, .list ys => pyBeqList xs ys
  | .dict xs, .dict ys => pyBeqDict xs ys
  | _, _ => false
def pyBeqList : List PyVal → List PyVal → Bool
  | [], [] => true
  | x :: xs, y :: ys => pyBeq x y && pyBeqList xs ys
  | _, _ => false
def pyBeqDict : List (String × PyVal) → List (String × PyVal) → Bool
  | [], [] => true
  | (k, x) :: xs, (l, y) :: ys => k == l && pyBeq x y && pyBeqDict xs ys
  | _, _ => false
end

theorem pyBeq_iff_eq : ∀ a b : PyVal, pyBeq a b = true ↔ a = b :=
  @PyVal.rec (fun a => ∀ b, pyBeq a b = true ↔ a = b)
    (fun xs => ∀ ys, pyBeqList xs ys = true ↔ xs = ys)
    (fun xs => ∀ ys, pyBeqDict xs ys = true ↔ xs = ys)
    (fun p => ∀ q : String × PyVal, (p.1 == q.1 && pyBeq p.2 q.2) = true ↔ p = q)
    (fun b => by cases b <;> simp [pyBeq])
    (fun a b => by cases b <;> simp [pyBeq])
    (fun a b => by cases b <;> simp [pyBeq])
    (fun a b => by cases b <;> simp [pyBeq])
    (fun xs ih b => by cases b <;> simp [pyBeq] <;> exact ih _)
    (fun xs ih b => by cases b <;> simp [pyBeq] <;> exact ih _)
    (fun ys => by cases ys <;> simp [pyBeqList])
    (fun x xs ih1 ih2 ys => by
      cases ys with
      | nil => simp [pyBeqList]
      | cons y ys => simp [pyBeqList, ih1 y, ih2 ys])
    (fun ys => by cases ys <;> simp [pyBeqDict])
    (fun p ps ih1 ih2 ys => by
      cases ys with
      | nil => simp [pyBeqDict]
      | cons q qs =>
        obtain ⟨k, x⟩ := p
        obtain ⟨l, y⟩ := q
        have h1 := ih1 (l, y)
        have h2 := ih2 qs
        simp only [pyBeqDict, Bool.and_eq_true, Prod.mk.injEq, List.cons.injEq] at h1 h2 ⊢
        exact and_congr h1 h2)
    (fun k v ih q => by
      obtain ⟨l, w⟩ := q
      simp [ih w])

instance : DecidableEq PyVal := fun a b =>
  decidable_of_iff (pyBeq a b = true) (pyBeq_iff_eq a b)

/-- Python truthiness of a decoded value: `None`, `False`, `0`, the empty
string, the empty list and the empty dict are falsy; everything else is
truthy. -/
def truthy : PyVal → Bool
  | .null => false
  | .bool b => b
  | .int n => n != 0
  | .str s => !s.isEmpty
  | .list xs => !xs.isEmpty
  | .dict xs => !xs.isEmpty

/-- Whether a value is a decoded JSON object (a Python dict, the only
modelled values supporting `.get`). -/
def PyVal.isDict : PyVal → Bool
  | .dict _ => true
  | _ => false

/-- Whether `v[:100]` succeeds in Python (the logging slice at line 97):
among the modelled values only strings and lists are sliceable. -/
def sliceable : PyVal → Bool
  | .str _ => true
  | .list _ => true
  | _ => false

/-- Python hashability of a decoded JSON value: decoded lists and dicts
are unhashable, so using one as a dict key raises `TypeError`; `None`,
booleans, numbers and strings are hashable. -/
def hashable : PyVal → Bool
  | .list _ => false
  | .dict _ => false
  | _ => true

/-- `d.get(k, default)` on a decoded JSON object given by its entry list
(keys are unique after decoding). -/
def objGet (xs : List (String × PyVal)) (k : String) (dflt : PyVal) : PyVal :=
  match xs with
  | [] => dflt
  | p :: rest => if p.1 = k then p.2 else objGet rest k dflt

/-- The global `SUBSCRIBED_AUTHORS_DATA` dict (line 22): external identity
key (`platform_id` value) mapped to the stored author record. -/
abbrev Roster := List (PyVal × PyVal)

/-- Python dict lookup `m.get(k)` on the roster. -/
def rosterGet (m : Roster) (k : PyVal) : Option PyVal :=
  match m with
  | [] => none
  | p :: rest => if p.1 = k then some p.2 else rosterGet rest k

/-- Python dict assignment `m[k] = v`: overwrite in place when the key is
present, append otherwise. -/
def rosterSet (m : Roster) (k : PyVal) (v : PyVal) : Roster :=
  match m with
  | [] => [(k, v)]
  | p :: rest => if p.1 = k then (k, v) :: rest else p :: rosterSet rest k v

/-- Outcome of the roster HTTP GET in `fetch_subscribed_authors`:
`transportError` is `httpx.RequestError` (caught at line 57), `statusError`
is the `httpx.HTTPStatusError` raised by `raise_for_status()` (caught by
the generic handler at line 61), `decodeError` is `json.JSONDecodeError`
(caught at line 59), and `ok v` means `response.json()` returned the
decoded value `v`. -/
inductive FetchResult where
  | transportError : FetchResult
  | statusError : FetchResult
  | decodeError : FetchResult
  | ok : PyVal → FetchResult

/-- The record stored per author at lines 50-54:
`{id, name, author_context}` via `author.get`. -/
def authorRecord (xs : List (String × PyVal)) : PyVal :=
  .dict [("id", objGet xs "id" .null),
         ("name", objGet xs "name" .null),
         ("author_context", objGet xs "author_context" .null)]

/-- The `for author in authors` loop of lines 46-54, threading the (already
cleared) roster dict and the accumulated `bsky_dids` list.  The Bool is
true when the loop ran to completion; it is false when the loop raises,
aborting with the updates made so far kept (the exception is caught at
line 61).  Two statements of the body can raise: `author.get` at line 47
raises `AttributeError` when the element is not a dict, and the dict
assignment `SUBSCRIBED_AUTHORS_DATA[did] = ...` at line 50 raises
`TypeError` when the truthy `did` is unhashable (a decoded list or dict) —
in that case the `bsky_dids.append(did)` of line 49 has already run. -/
def processAuthors : List PyVal → Roster → List PyVal → Roster × List PyVal × Bool
  | [], store, dids => (store, dids, true)
  | .dict xs :: rest, store, dids =>
      let did := objGet xs "platform_id" .null
      if truthy did then
        if hashable did then
          processAuthors rest (rosterSet store did (authorRecord xs)) (dids ++ [did])
        else
          (store, dids ++ [did], false)
      else
        processAuthors rest store dids
  | _ :: _, store, dids => (store, dids, false)

/-- `fetch_subscribed_authors` (lines 25-63), acting on the global roster
dict `store` given the HTTP outcome `r`.  Returns the new roster state and
the returned `bsky_dids` list.  On any caught exception the function
returns `[]`; the roster is cleared at line 44 only after a truthy decoded
response, and a non-list response, a non-dict element, or an unhashable
truthy `platform_id` raises inside or before the loop, keeping whatever
was written up to that point. -/
def fetch_subscribed_authors (store : Roster) (r : FetchResult) : Roster × List PyVal :=
  match r with
  | .transportError => (store, [])
  | .statusError => (store, [])
  | .decodeError => (store, [])
  | .ok v =>
      if truthy v then
        match v with
        | .list authors =>
            match processAuthors authors [] [] with
            | (st, dids, true) => (st, dids)
            | (st, _, false) => (st, [])
        | _ => ([], [])
      else
        (store, [])

/-- The body sent to the workflow-trigger POST (lines 101-104). -/
structure TriggerPayload where
  tweet_author_id : PyVal
  tweet_content : PyVal
deriving DecidableEq

/-- One raw inbound websocket message: either `json.loads` raises
`JSONDecodeError` (caught at line 120) or it yields a decoded value. -/
inductive RawMsg where
  | undecodable : RawMsg
  | decoded : PyVal → RawMsg
deriving DecidableEq

/-- Result of running the per-message body on one decoded value. -/
inductive DispatchResult where
  | raised : DispatchResult
  | clean : Option TriggerPayload → DispatchResult
deriving DecidableEq

/-- The per-message filtering and payload construction of lines 85-108.
`raised` marks the places where the Python code raises (all caught by the
handlers at lines 120-123); `clean none` is a clean no-op; `clean (some p)`
means the workflow-trigger POST is issued with body `p`. -/
def dispatchRaw (roster : Roster) (data : PyVal) : DispatchResult :=
  match data with
  | .dict xs =>
      if objGet xs "kind" .null = .str "commit" then
        match objGet xs "commit" (.dict []) with
        | .dict cs =>
            if objGet cs "operation" .null = .str "create" then
              let did := objGet xs "did" .null
              match (rosterGet roster did).getD (.dict []) with
              | .dict infoXs =>
                  let author_id := objGet infoXs "id" .null
                  if objGet cs "collection" (.str "N/A") = .str "app.bsky.feed.post" then
                    match objGet cs "record" (.dict []) with
                    | .dict rs =>
                        let post_text := objGet rs "text" (.str "")
                        if sliceable post_text then
                          if truthy author_id && truthy post_text then
                            .clean (some ⟨author_id, post_text⟩)
                          else
                            .clean none
                        else
                          .raised
                    | _ => .raised
                  else
                    .clean none
              | _ => .raised
            else
              .clean none
        | _ => .raised
      else
        .clean none
  | _ => .raised

/-- Outcome of one workflow-trigger POST (lines 109-118): success,
`httpx.HTTPStatusError` from `raise_for_status()` (caught at line 115), or
`httpx.RequestError` (caught at line 117). -/
inductive ForwardOutcome where
  | success : ForwardOutcome
  | httpStatusError : ForwardOutcome
  | transportError : ForwardOutcome
deriving DecidableEq

/-- One iteration of the `async for message in websocket` body (lines
84-123): the forward call issued for this message (if any), and whether the
loop keeps running afterwards (false would mean an exception escaped the
message body and tore the connection down). -/
def messageStep (roster : Roster) (m : RawMsg) (out : ForwardOutcome) :
    Option TriggerPayload × Bool :=
  match m with
  | .undecodable => (none, true)
  | .decoded v =>
      match dispatchRaw roster v with
      | .raised => (none, true)
      | .clean none => (none, true)
      | .clean (some p) =>
          match out with
          | .success => (some p, true)
          | .httpStatusError => (some p, true)
          | .transportError => (some p, true)

/-- The message loop over one connected session: each inbound message is
paired with the outcome its forward call would have.  Produces the forward
calls actually issued, in order; a step whose continue-flag were false
would end the session, dropping the remaining messages. -/
def runMessages (roster : Roster) : List (RawMsg × ForwardOutcome) → List (TriggerPayload × ForwardOutcome)
  | [] => []
  | (m, out) :: rest =>
      match messageStep roster m out with
      | (some p, true) => (p, out) :: runMessages roster rest
      | (some p, false) => [(p, out)]
      | (none, true) => runMessages roster rest
      | (none, false) => []

/-- How one iteration of the `while True` reconnect loop (lines 79-131)
ends.  `connectFailure`: `websockets.connect` (or the handshake) raises,
reaching the generic handler at line 127.  `closedOk`: the remote end
closes the session cleanly (the `async for` ends, or a
`ConnectionClosedOK` is caught at line 125).  `closedError`: the session
ends in an abnormal closure — the `async for` raises
`ConnectionClosedError`, which is a subclass of `ConnectionClosed` and is
therefore also caught at line 125.  `otherError`: any other exception
escapes the session mid-stream and reaches the generic handler at
line 127. -/
inductive SessionResult where
  | connectFailure : SessionResult
  | closedOk : List (RawMsg × ForwardOutcome) → SessionResult
  | closedError : List (RawMsg × ForwardOutcome) → SessionResult
  | otherError : List (RawMsg × ForwardOutcome) → SessionResult

/-- Observable actions of the websocket client. -/
inductive WsAction where
  | connect : WsAction
  | forward : TriggerPayload → WsAction
  | sleep : Nat → WsAction
deriving DecidableEq

/-- One iteration of the reconnect loop: a connect attempt, the forward
calls of the session, then the backoff sleeps.  Both `ConnectionClosed`
endings — clean close and abnormal `ConnectionClosedError` closure — are
caught at line 125 and run only the unconditional `asyncio.sleep(5)` of
line 131; only exceptions reaching the generic handler at line 127 first
run the `asyncio.sleep(10)` of line 129. -/
def runSession (roster : Roster) : SessionResult → List WsAction
  | .connectFailure => [.connect, .sleep 10, .sleep 5]
  | .closedOk msgs =>
      .connect :: ((runMessages roster msgs).map (fun pc => .forward pc.1) ++ [.sleep 5])
  | .closedError msgs =>
      .connect :: ((runMessages roster msgs).map (fun pc => .forward pc.1) ++ [.sleep 5])
  | .otherError msgs =>
      .connect :: ((runMessages roster msgs).map (fun pc => .forward pc.1) ++ [.sleep 10, .sleep 5])

/-- `websocket_client` (lines 66-131) run against a finite script of
session outcomes: with a falsy (empty) `subscribed_dids` list it returns at
line 73 before any connection attempt; otherwise every scripted session is
one loop iteration (the loop itself never exits). -/
def websocket_client_run (roster : Roster) (subscribed_dids : List PyVal)
    (sessions : List SessionResult) : List WsAction :=
  if subscribed_dids.isEmpty then []
  else (sessions.map (runSession roster)).flatten

/-- `main` (lines 133-137): fetch the roster, then run the websocket client
on the returned did list with the resulting roster state. -/
def main_run (store : Roster) (r : FetchResult) (sessions : List SessionResult) : List WsAction :=
  let res := fetch_subscribed_authors store r
  websocket_client_run res.1 res.2 sessions

/-- Seconds slept by one action. -/
def sleepOf : WsAction → Nat
  | .sleep n => n
  | _ => 0

/-- Total seconds slept across a list of actions. -/
def sleepTotal (acts : List WsAction) : Nat := (acts.map sleepOf).sum

/-- The `kind` field a message presents to the check at line 86. -/
def msgKind (v : PyVal) : PyVal :=
  match v with
  | .dict xs => objGet xs "kind" .null
  | _ => .null

/-- The `commit` object of a message (line 87, default `{}`). -/
def msgCommit (v : PyVal) : PyVal :=
  match v with
  | .dict xs => objGet xs "commit" (.dict [])
  | _ => .dict []

/-- The `commit.operation` field checked at line 88. -/
def msgOp (v : PyVal) : PyVal :=
  match msgCommit v with
  | .dict cs => objGet cs "operation" .null
  | _ => .null

/-- The `commit.collection` field checked at line 94 (default `"N/A"`). -/
def msgCollection (v : PyVal) : PyVal :=
  match msgCommit v with
  | .dict cs => objGet cs "collection" (.str "N/A")
  | _ => .str "N/A"

/-- The `platform_id` a roster-fetch entry successfully stores under: the
entry must be a dict, its `platform_id` truthy (line 48), and the value
hashable (otherwise the dict assignment at line 50 raises instead of
storing). -/
def pidOf : PyVal → Option PyVal
  | .dict xs =>
      let d := objGet xs "platform_id" .null
      if truthy d && hashable d then some d else none
  | _ => none

/-- The `bsky_dids` list produced by a completed author loop. -/
def didsOf (l : List PyVal) : List PyVal := l.filterMap pidOf

/-- Effect of one successfully processed author entry on the roster dict
(lines 47-54): only a dict entry with a truthy, hashable `platform_id`
stores a record. -/
def storeStep (st : Roster) (a : PyVal) : Roster :=
  match a with
  | .dict xs =>
      let d := objGet xs "platform_id" .null
      if truthy d && hashable d then rosterSet st d (authorRecord xs) else st
  | _ => st

/-- The roster dict produced by a completed author loop, starting from
`init`. -/
def storeOf (l : List PyVal) (init : Roster) : Roster := l.foldl storeStep init

/-- Whether one fetched author entry can be processed without raising: it
is a dict, and its `platform_id` is either falsy (the entry is skipped) or
hashable (the entry is stored).  The author loop of lines 46-54 runs to
completion exactly on lists of such entries. -/
def entryOk : PyVal → Bool
  | .dict xs =>
      let d := objGet xs "platform_id" .null
      !truthy d || hashable d
  | _ => false

/-- The stored record for an author entry (identity on non-dicts, which
never get stored). -/
def recordOf : PyVal → PyVal
  | .dict xs => authorRecord xs
  | v => v

/-- Whether a single message raises during processing: either `json.loads`
fails, or the per-message body raises (all such exceptions are caught at
lines 120-123). -/
def malformedMsg (roster : Roster) : RawMsg → Bool
  | .undecodable => true
  | .decoded v =>
      match dispatchRaw roster v with
      | .raised => true
      | .clean _ => false

/-- The roster of the spec scenario in section 8: one author with
`platform_id` `did:abc` and internal id 42. -/
def sampleRoster : Roster :=
  [(.str "did:abc", .dict [("id", .int 42), ("name", .str "A"), ("author_context", .null)])]

/-- The qualifying stream message of the spec scenario in section 8. -/
def samplePost : PyVal :=
  .dict [("kind", .str "commit"), ("did", .str "did:abc"),
         ("commit", .dict [("operation", .str "create"),
                           ("collection", .str "app.bsky.feed.post"),
                           ("record", .dict [("text", .str "hello")])])]

/-- The same message with `operation` set to `update`. -/
def sampleUpdate : PyVal :=
  .dict [("kind", .str "commit"), ("did", .str "did:abc"),
         ("commit", .dict [("operation", .str "update"),
                           ("collection", .str "app.bsky.feed.post"),
                           ("record", .dict [("text", .str "hello")])])]

example : truthy (.str "") = false := by decide
example : truthy (.int 0) = false := by decide
example : objGet [("a", .int 1), ("b", .int 2)] "b" .null = .int 2 := by decide
example : rosterSet [(.str "a", .int 1), (.str "b", .int 2)] (.str "a") (.int 7)
    = [(.str "a", .int 7), (.str "b", .int 2)] := by decide
example : dispatchRaw sampleRoster samplePost =
    .clean (some ⟨.int 42, .str "hello"⟩) := by decide
example : dispatchRaw sampleRoster sampleUpdate = .clean none := by decide
example : dispatchRaw sampleRoster (.int 3) = .raised := by decide
example : fetch_subscribed_authors []
    (.ok (.list [.dict [("platform_id", .str "did:abc"), ("id", .int 42),
                        ("name", .str "A"), ("author_context", .null)]])) =
    (sampleRoster, [.str "did:abc"]) := by decide
example : fetch_subscribed_authors [(.str "x", .str "old")]
    (.ok (.list [.dict [("platform_id", .str "a"), ("id", .int 1)],
                 .dict [("platform_id", .list [.str "x"]), ("id", .int 2)]])) =
    ([(.str "a", .dict [("id", .int 1), ("name", .null), ("author_context", .null)])],
     []) := by decide

/-! ### Helper lemmas about the message loop -/

/-- Every exception a message body can raise is caught by the handlers at
lines 115-123, so the `async for` loop always continues. -/
theorem messageStep_continues (roster : Roster) (m : RawMsg) (out : ForwardOutcome) :
    (messageStep roster m out).2 = true := by
  cases m with
  | undecodable => rfl
  | decoded v =>
    cases hd : dispatchRaw roster v with
    | raised => simp [messageStep, hd]
    | clean o =>
      cases o with
      | none => simp [messageStep, hd]
      | some p => cases out <;> simp [messageStep, hd]

/-- The forward call a message issues does not depend on how that call
turns out (the outcome only affects logging). -/
theorem messageStep_fst_outcome_free (roster : Roster) (m : RawMsg)
    (out out2 : ForwardOutcome) :
    (messageStep roster m out).1 = (messageStep roster m out2).1 := by
  cases m with
  | undecodable => rfl
  | decoded v =>
    cases hd : dispatchRaw roster v with
    | raised => simp [messageStep, hd]
    | clean o =>
      cases o with
      | none => simp [messageStep, hd]
      | some p => cases out <;> cases out2 <;> simp [messageStep, hd]

/-- Unrolling one message of the loop: its forward call (zero or one) is
emitted and the rest of the stream is processed unchanged. -/
theorem runMessages_cons (roster : Roster) (m : RawMsg) (out : ForwardOutcome)
    (rest : List (RawMsg × ForwardOutcome)) :
    runMessages roster ((m, out) :: rest) =
      ((messageStep roster m out).1.toList.map (fun p => (p, out))) ++
        runMessages roster rest := by
  have hc := messageStep_continues roster m out
  cases hs : messageStep roster m out with
  | mk c cont =>
    rw [hs] at hc
    subst hc
    cases c with
    | none => simp [runMessages, hs]
    | some p => simp [runMessages, hs]

/-- A message whose filters do not all match produces no forward call: the
dispatch either raises (caught) or falls through cleanly. -/
theorem noop_of_filter_mismatch (roster : Roster) (v : PyVal)
    (h : msgKind v ≠ .str "commit" ∨ msgOp v ≠ .str "create" ∨
         msgCollection v ≠ .str "app.bsky.feed.post") :
    dispatchRaw roster v = .raised ∨ dispatchRaw roster v = .clean none := by
  cases v with
  | null => left; simp [dispatchRaw]
  | bool b => left; simp [dispatchRaw]
  | int n => left; simp [dispatchRaw]
  | str s => left; simp [dispatchRaw]
  | list l => left; simp [dispatchRaw]
  | dict xs =>
    by_cases h1 : objGet xs "kind" .null = .str "commit"
    · cases hc : objGet xs "commit" (.dict []) with
      | dict cs =>
        by_cases h2 : objGet cs "operation" .null = .str "create"
        · cases hi : (rosterGet roster (objGet xs "did" .null)).getD (.dict []) with
          | dict infoXs =>
            by_cases h3 : objGet cs "collection" (.str "N/A") = .str "app.bsky.feed.post"
            · exfalso
              rcases h with h | h | h
              · exact h (by simp [msgKind, h1])
              · exact h (by simp [msgOp, msgCommit, hc, h2])
              · exact h (by simp [msgCollection, msgCommit, hc, h3])
            · right; simp [dispatchRaw, h1, hc, h2, hi, h3]
          | null => left; simp [dispatchRaw, h1, hc, h2, hi]
          | bool b => left; simp [dispatchRaw, h1, hc, h2, hi]
          | int n => left; simp [dispatchRaw, h1, hc, h2, hi]
          | str s => left; simp [dispatchRaw, h1, hc, h2, hi]
          | list l => left; simp [dispatchRaw, h1, hc, h2, hi]
        · right; simp [dispatchRaw, h1, hc, h2]
      | null => left; simp [dispatchRaw, h1, hc]
      | bool b => left; simp [dispatchRaw, h1, hc]
      | int n => left; simp [dispatchRaw, h1, hc]
      | str s => left; simp [dispatchRaw, h1, hc]
      | list l => left; simp [dispatchRaw, h1, hc]
    · right; simp [dispatchRaw, h1]

/-! ### Claims about the dispatcher -/

/-- Claim C2: for every inbound stream message where kind is not `commit`,
or operation is not `create`, or the collection does not equal the
post-creation collection type `app.bsky.feed.post`, the dispatcher performs
no forwarding call and is a no-op with respect to downstream side
effects. -/
theorem C2_nonmatching_message_is_noop (roster : Roster) (v : PyVal)
    (out : ForwardOutcome)
    (h : msgKind v ≠ .str "commit" ∨ msgOp v ≠ .str "create" ∨
         msgCollection v ≠ .str "app.bsky.feed.post") :
    messageStep roster (.decoded v) out = (none, true) ∧
    ∀ rest, runMessages roster ((.decoded v, out) :: rest) = runMessages roster rest := by
  have hstep : messageStep roster (.decoded v) out = (none, true) := by
    rcases noop_of_filter_mismatch roster v h with hd | hd <;> simp [messageStep, hd]
  exact ⟨hstep, fun rest => by simp [runMessages, hstep]⟩

/-- Witness for C2: the scenario message with `operation` set to `update`
produces no forward call. -/
theorem C2_witness :
    runMessages sampleRoster [(.decoded sampleUpdate, .success)] =
      runMessages sampleRoster [] :=
  (C2_nonmatching_message_is_noop sampleRoster sampleUpdate .success
    (Or.inr (Or.inl (by decide)))).2 []

/-- Claim C7: for every malformed inbound message (one that fails decoding
or raises during per-message processing), the dispatcher does not crash and
does not propagate the error: the message is skipped, the stream connection
is not torn down, and the remaining messages are processed normally. -/
theorem C7_malformed_message_skipped (roster : Roster) (m : RawMsg)
    (out : ForwardOutcome) (h : malformedMsg roster m = true) :
    messageStep roster m out = (none, true) ∧
    ∀ rest, runMessages roster ((m, out) :: rest) = runMessages roster rest := by
  have hstep : messageStep roster m out = (none, true) := by
    cases m with
    | undecodable => rfl
    | decoded v =>
      cases hd : dispatchRaw roster v with
      | raised => simp [messageStep, hd]
      | clean o => simp [malformedMsg, hd] at h
  exact ⟨hstep, fun rest => by simp [runMessages, hstep]⟩

/-- Witness for C7: a message decoding to the bare integer 3 (on which
`.get` raises) is skipped, and the following valid scenario message is
still processed. -/
theorem C7_witness :
    runMessages sampleRoster
        [(.decoded (.int 3), .success), (.decoded samplePost, .success)] =
      runMessages sampleRoster [(.decoded samplePost, .success)] :=
  (C7_malformed_message_skipped sampleRoster (.decoded (.int 3)) .success
    (by decide)).2 [(.decoded samplePost, .success)]

/-- Claim C6: for every forward call that fails with an HTTP status error
or a transport error, the failure is caught and never propagated: the loop
continues (the stream connection is not torn down), the failed trigger is
not retried (at most the single call is issued, the same call success would
issue), and subsequent stream messages are processed unchanged. -/
theorem C6_forward_failure_contained (roster : Roster) (m : RawMsg)
    (out : ForwardOutcome) (rest : List (RawMsg × ForwardOutcome))
    (h : out = .httpStatusError ∨ out = .transportError) :
    (messageStep roster m out).2 = true ∧
    (messageStep roster m out).1 = (messageStep roster m .success).1 ∧
    ((messageStep roster m out).1.toList.map (fun p => (p, out))).length ≤ 1 ∧
    runMessages roster ((m, out) :: rest) =
      ((messageStep roster m out).1.toList.map (fun p => (p, out))) ++
        runMessages roster rest := by
  refine ⟨messageStep_continues roster m out,
          messageStep_fst_outcome_free roster m out .success, ?_,
          runMessages_cons roster m out rest⟩
  cases (messageStep roster m out).1 <;> simp

/-- Witness for C6: a scenario message whose forward call fails with an
HTTP status error still issues exactly that one call, and a second
identical message afterwards is processed unchanged. -/
theorem C6_witness :
    runMessages sampleRoster
        [(.decoded samplePost, .httpStatusError), (.decoded samplePost, .success)] =
      ((messageStep sampleRoster (.decoded samplePost) .httpStatusError).1.toList.map
          (fun p => (p, ForwardOutcome.httpStatusError))) ++
        runMessages sampleRoster [(.decoded samplePost, .success)] :=
  (C6_forward_failure_contained sampleRoster (.decoded samplePost) .httpStatusError
    [(.decoded samplePost, .success)] (Or.inl rfl)).2.2.2

/-! ### Helper lemmas about the reconnect loop -/

theorem sleepTotal_cons (a : WsAction) (acts : List WsAction) :
    sleepTotal (a :: acts) = sleepOf a + sleepTotal acts := by
  simp [sleepTotal]

theorem sleepTotal_append (l1 l2 : List WsAction) :
    sleepTotal (l1 ++ l2) = sleepTotal l1 + sleepTotal l2 := by
  simp [sleepTotal]

theorem sleepTotal_map_forward (ps : List (TriggerPayload × ForwardOutcome)) :
    (List.map (sleepOf ∘ fun pc => WsAction.forward pc.1) ps).sum = 0 := by
  induction ps with
  | nil => rfl
  | cons p rest ih => simpa [sleepOf] using ih

/-! ### Claims about the reconnect loop and startup -/

/-- Counterexample to claim C4 as stated: a transport-level error
disconnect need not wait longer than a clean close.  The handler
`except websockets.exceptions.ConnectionClosed` at line 125 also catches
`ConnectionClosedError` — the abnormal, transport-level closure the
`async for` raises when the connection drops — and that path runs no
line-129 sleep: the abnormal closure and the clean close both wait exactly
the baseline 5 time-units. -/
theorem C4_counterexample :
    sleepTotal (runSession [] (SessionResult.closedError [])) = 5 ∧
    sleepTotal (runSession [] (SessionResult.closedOk [])) = 5 ∧
    ¬ (sleepTotal (runSession [] (SessionResult.closedOk [])) <
        sleepTotal (runSession [] (SessionResult.closedError []))) :=
  ⟨by decide, by decide, by decide⟩

/-- Claim C4 (amended): every disconnect caught by the `ConnectionClosed`
handler at line 125 — a clean close and an abnormal transport-level
closure alike — waits only the uniform baseline 5 time-units of line 131
before the reconnect attempt; only failures outside the `ConnectionClosed`
family (a failed connection attempt, or any other exception reaching the
generic handler at line 127) additionally wait the 10 time-units of
line 129, 10 + 5 in total, which is strictly longer. -/
theorem C4_amended_backoff (roster : Roster)
    (msgs1 msgs2 msgs3 : List (RawMsg × ForwardOutcome)) :
    sleepTotal (runSession roster (.closedOk msgs1)) = 5 ∧
    sleepTotal (runSession roster (.closedError msgs2)) = 5 ∧
    sleepTotal (runSession roster (.otherError msgs3)) = 10 + 5 ∧
    sleepTotal (runSession roster .connectFailure) = 10 + 5 ∧
    sleepTotal (runSession roster (.closedOk msgs1)) <
      sleepTotal (runSession roster (.otherError msgs3)) := by
  have h1 : sleepTotal (runSession roster (.closedOk msgs1)) = 5 := by
    simp [runSession, sleepTotal_cons, sleepTotal_append, sleepTotal_map_forward,
          sleepTotal, sleepOf]
  have h2 : sleepTotal (runSession roster (.closedError msgs2)) = 5 := by
    simp [runSession, sleepTotal_cons, sleepTotal_append, sleepTotal_map_forward,
          sleepTotal, sleepOf]
  have h3 : sleepTotal (runSession roster (.otherError msgs3)) = 10 + 5 := by
    simp [runSession, sleepTotal_cons, sleepTotal_append, sleepTotal_map_forward,
          sleepTotal, sleepOf]
  refine ⟨h1, h2, h3, by simp [runSession, sleepTotal, sleepOf], ?_⟩
  rw [h1, h3]; omega

/-- Claim C8: when the roster fetch fails with a transport error or a
decode error, `fetch_subscribed_authors` returns an empty did list without
raising and leaves the roster dict unchanged, and `main` then proceeds with
that empty set, so the websocket client performs no action at all. -/
theorem C8_fetch_failure_degrades_to_idle (store : Roster)
    (sessions : List SessionResult) :
    fetch_subscribed_authors store .transportError = (store, []) ∧
    fetch_subscribed_authors store .decodeError = (store, []) ∧
    main_run store .transportError sessions = [] ∧
    main_run store .decodeError sessions = [] := by
    exact ⟨rfl, rfl, by simp [main_run, fetch_subscribed_authors, websocket_client_run],
           by simp [main_run, fetch_subscribed_authors, websocket_client_run]⟩

/-- Claim C5: whenever the roster fetch produces an empty subscription key
set (empty result or fetch failure), the stream connection manager never
leaves Idle: the run of the worker contains no connect attempt, no forward
call, and in fact no action at all. -/
theorem C5_empty_fetch_keeps_manager_idle (store : Roster) (r : FetchResult)
    (sessions : List SessionResult)
    (h : (fetch_subscribed_authors store r).2 = []) :
    main_run store r sessions = [] ∧
    (∀ roster : Roster, websocket_client_run roster [] sessions = []) ∧
    WsAction.connect ∉ main_run store r sessions ∧
    ∀ p, WsAction.forward p ∉ main_run store r sessions := by
  have hm : main_run store r sessions = [] := by
    simp [main_run, websocket_client_run, h]
  exact ⟨hm, fun roster => by simp [websocket_client_run], by simp [hm],
         fun p => by simp [hm]⟩

/-- Witness for C5: a failed fetch yields an empty key set and a fully idle
run even against a session script. -/
theorem C5_witness :
    main_run [] .transportError [.connectFailure] = [] ∧
    (∀ roster : Roster, websocket_client_run roster [] [.connectFailure] = []) ∧
    WsAction.connect ∉ main_run [] .transportError [.connectFailure] ∧
    ∀ p, WsAction.forward p ∉ main_run [] .transportError [.connectFailure] :=
  C5_empty_fetch_keeps_manager_idle [] .transportError [.connectFailure] rfl

/-- Claim C1: for every inbound commit/create message on collection
`app.bsky.feed.post` whose emitting did resolves in the roster to a record
with a truthy (non-empty) internal id and whose record carries non-empty
text, the dispatcher issues exactly one forward call whose
`tweet_author_id` is the resolved internal id and whose `tweet_content` is
the extracted record text. -/
theorem C1_matching_message_forwards_exactly_once (roster : Roster)
    (xs cs infoXs rs : List (String × PyVal)) (t : String)
    (hkind : objGet xs "kind" .null = .str "commit")
    (hcommit : objGet xs "commit" (.dict []) = .dict cs)
    (hop : objGet cs "operation" .null = .str "create")
    (hinfo : rosterGet roster (objGet xs "did" .null) = some (.dict infoXs))
    (hid : truthy (objGet infoXs "id" .null) = true)
    (hcoll : objGet cs "collection" (.str "N/A") = .str "app.bsky.feed.post")
    (hrec : objGet cs "record" (.dict []) = .dict rs)
    (htext : objGet rs "text" (.str "") = .str t)
    (hne : t ≠ "") :
    (∀ out, messageStep roster (.decoded (.dict xs)) out =
      (some ⟨objGet infoXs "id" .null, .str t⟩, true)) ∧
    (∀ out rest, runMessages roster ((.decoded (.dict xs), out) :: rest) =
      (⟨objGet infoXs "id" .null, .str t⟩, out) :: runMessages roster rest) := by
  have hgetD : (rosterGet roster (objGet xs "did" .null)).getD (.dict []) = .dict infoXs := by
    rw [hinfo]; rfl
  have htr : truthy (.str t) = true := by
    cases h : t.isEmpty with
    | false => simp [truthy, h]
    | true => exact absurd ((String.isEmpty_iff t).mp h) hne
  have hdisp : dispatchRaw roster (.dict xs) =
      .clean (some ⟨objGet infoXs "id" .null, .str t⟩) := by
    simp [dispatchRaw, hkind, hcommit, hop, hgetD, hcoll, hrec, htext, sliceable, hid, htr]
  have hstep : ∀ out, messageStep roster (.decoded (.dict xs)) out =
      (some ⟨objGet infoXs "id" .null, .str t⟩, true) := by
    intro out; cases out <;> simp [messageStep, hdisp]
  exact ⟨hstep, fun out rest => by simp [runMessages, hstep out]⟩

/-- Witness for C1: the spec scenario — roster mapping `did:abc` to
internal id 42 and the `hello` post message — issues exactly the forward
call `{tweet_author_id: 42, tweet_content: "hello"}`. -/
theorem C1_witness :
    runMessages sampleRoster [(.decoded samplePost, .success)] =
      [(⟨.int 42, .str "hello"⟩, .success)] :=
  (C1_matching_message_forwards_exactly_once sampleRoster
      [("kind", .str "commit"), ("did", .str "did:abc"),
       ("commit", .dict [("operation", .str "create"),
                         ("collection", .str "app.bsky.feed.post"),
                         ("record", .dict [("text", .str "hello")])])]
      [("operation", .str "create"), ("collection", .str "app.bsky.feed.post"),
       ("record", .dict [("text", .str "hello")])]
      [("id", .int 42), ("name", .str "A"), ("author_context", .null)]
      [("text", .str "hello")] "hello"
      (by decide) (by decide) (by decide) (by decide) (by decide) (by decide)
      (by decide) (by decide) (by decide)).2 .success []

/-- Claim C9: for every commit/create message matching the post collection
with non-empty text, if the resolved internal id is falsy (the integer 0,
null, or absent because the emitting key is not in the roster), no forward
call is issued even though every other filter matched — an identity whose
internal id is 0 can never trigger a workflow. -/
theorem C9_falsy_internal_id_never_forwards (roster : Roster)
    (xs cs rs : List (String × PyVal)) (t : String) (out : ForwardOutcome)
    (hkind : objGet xs "kind" .null = .str "commit")
    (hcommit : objGet xs "commit" (.dict []) = .dict cs)
    (hop : objGet cs "operation" .null = .str "create")
    (hid : rosterGet roster (objGet xs "did" .null) = none ∨
      ∃ infoXs, rosterGet roster (objGet xs "did" .null) = some (.dict infoXs) ∧
        truthy (objGet infoXs "id" .null) = false)
    (hcoll : objGet cs "collection" (.str "N/A") = .str "app.bsky.feed.post")
    (hrec : objGet cs "record" (.dict []) = .dict rs)
    (htext : objGet rs "text" (.str "") = .str t)
    (hne : t ≠ "") :
    messageStep roster (.decoded (.dict xs)) out = (none, true) ∧
    ∀ rest, runMessages roster ((.decoded (.dict xs), out) :: rest) =
      runMessages roster rest := by
  have hdisp : dispatchRaw roster (.dict xs) = .clean none := by
    rcases hid with hid | ⟨infoXs, hid, hfalsy⟩
    · have hgetD : (rosterGet roster (objGet xs "did" .null)).getD (.dict []) = .dict [] := by
        rw [hid]; rfl
      simp [dispatchRaw, hkind, hcommit, hop, hgetD, hcoll, hrec, htext, sliceable,
            objGet, truthy]
    · have hgetD : (rosterGet roster (objGet xs "did" .null)).getD (.dict []) = .dict infoXs := by
        rw [hid]; rfl
      simp [dispatchRaw, hkind, hcommit, hop, hgetD, hcoll, hrec, htext, sliceable, hfalsy]
  have hstep : messageStep roster (.decoded (.dict xs)) out = (none, true) := by
    simp [messageStep, hdisp]
  exact ⟨hstep, fun rest => by simp [runMessages, hstep]⟩

/-- Witness for C9: with the roster mapping `did:abc` to internal id 0, the
otherwise fully matching scenario post produces no forward call. -/
theorem C9_witness :
    runMessages [(.str "did:abc", .dict [("id", .int 0)])]
        [(.decoded samplePost, .success)] =
      runMessages [(.str "did:abc", .dict [("id", .int 0)])] [] :=
  (C9_falsy_internal_id_never_forwards [(.str "did:abc", .dict [("id", .int 0)])]
      [("kind", .str "commit"), ("did", .str "did:abc"),
       ("commit", .dict [("operation", .str "create"),
                         ("collection", .str "app.bsky.feed.post"),
                         ("record", .dict [("text", .str "hello")])])]
      [("operation", .str "create"), ("collection", .str "app.bsky.feed.post"),
       ("record", .dict [("text", .str "hello")])]
      [("text", .str "hello")] "hello" .success
      (by decide) (by decide) (by decide)
      (Or.inr ⟨[("id", .int 0)], by decide, by decide⟩)
      (by decide) (by decide) (by decide) (by decide)).2 []

/-! ### Helper lemmas about the roster load -/

theorem rosterGet_rosterSet (m : Roster) (k v k2 : PyVal) :
    rosterGet (rosterSet m k v) k2 = if k = k2 then some v else rosterGet m k2 := by
  induction m with
  | nil => simp [rosterSet, rosterGet]
  | cons p rest ih =>
    by_cases h1 : p.1 = k
    · by_cases h2 : k = k2
      · simp [rosterSet, rosterGet, h1, h2]
      · have hp : ¬(p.1 = k2) := by rw [h1]; exact h2
        simp [rosterSet, rosterGet, h1, h2, hp]
    · by_cases hp : p.1 = k2
      · have h2 : ¬(k = k2) := fun he => h1 (by rw [hp, he])
        have h2s : ¬(k2 = k) := fun he => h2 he.symm
        simp [rosterSet, rosterGet, h1, hp, h2, h2s]
      · simp [rosterSet, rosterGet, h1, hp, ih]

theorem mem_rosterSet (m : Roster) (k v : PyVal) :
    ∀ q ∈ rosterSet m k v, q = (k, v) ∨ q ∈ m := by
  induction m with
  | nil => intro q hq; simp [rosterSet] at hq; left; exact hq
  | cons p rest ih =>
    intro q hq
    by_cases h1 : p.1 = k
    · simp only [rosterSet, if_pos h1, List.mem_cons] at hq
      rcases hq with hq | hq
      · left; exact hq
      · right; exact List.mem_cons_of_mem _ hq
    · simp only [rosterSet, if_neg h1, List.mem_cons] at hq
      rcases hq with hq | hq
      · right; exact hq ▸ List.mem_cons_self _ _
      · rcases ih q hq with h | h
        · left; exact h
        · right; exact List.mem_cons_of_mem _ h

/-- When every element of the fetched list is processable (a dict whose
truthy `platform_id` is hashable), the author loop runs to completion and
produces exactly the fold of the per-entry effects. -/
theorem processAuthors_complete (l : List PyVal) :
    ∀ (store : Roster) (dids : List PyVal), (∀ a ∈ l, entryOk a = true) →
      processAuthors l store dids = (storeOf l store, dids ++ didsOf l, true) := by
  induction l with
  | nil => intro store dids _; simp [processAuthors, storeOf, didsOf]
  | cons a rest ih =>
    intro store dids h
    have ha : entryOk a = true := h a (List.mem_cons_self a rest)
    have hrest : ∀ b ∈ rest, entryOk b = true := fun b hb => h b (List.mem_cons_of_mem _ hb)
    cases a with
    | dict xs =>
      by_cases hd : truthy (objGet xs "platform_id" .null) = true
      · have hh : hashable (objGet xs "platform_id" .null) = true := by
          simp only [entryOk, Bool.or_eq_true, Bool.not_eq_true'] at ha
          rcases ha with ha | ha
          · exact absurd hd (by simp [ha])
          · exact ha
        have hand : (truthy (objGet xs "platform_id" .null) &&
            hashable (objGet xs "platform_id" .null)) = true := by
          simp [hd, hh]
        have hstep : processAuthors (PyVal.dict xs :: rest) store dids =
            processAuthors rest
              (rosterSet store (objGet xs "platform_id" .null) (authorRecord xs))
              (dids ++ [objGet xs "platform_id" .null]) := by
          simp [processAuthors, hd, hh]
        rw [hstep, ih _ _ hrest]
        simp [storeOf, storeStep, didsOf, pidOf, hand]
      · have hand : (truthy (objGet xs "platform_id" .null) &&
            hashable (objGet xs "platform_id" .null)) = false := by
          cases htd : truthy (objGet xs "platform_id" .null) with
          | false => rfl
          | true => exact absurd htd hd
        have hstep : processAuthors (PyVal.dict xs :: rest) store dids =
            processAuthors rest store dids := by
          simp [processAuthors, hd]
        rw [hstep, ih _ _ hrest]
        simp [storeOf, storeStep, didsOf, pidOf, hand]
    | null => simp [entryOk] at ha
    | bool b => simp [entryOk] at ha
    | int n => simp [entryOk] at ha
    | str s => simp [entryOk] at ha
    | list xs => simp [entryOk] at ha

/-- On a successful fetch decoding to a non-empty list of processable
entries, the load fully replaces the roster: the result does not depend on
the prior store and equals the fold over all entries starting from the
cleared dict. -/
theorem fetch_ok_list (store : Roster) (l : List PyVal)
    (hok : ∀ a ∈ l, entryOk a = true) (hne : l ≠ []) :
    fetch_subscribed_authors store (.ok (.list l)) = (storeOf l [], didsOf l) := by
  have ht : truthy (.list l) = true := by
    cases l with
    | nil => exact absurd rfl hne
    | cons a rest => simp [truthy]
  have h1 : fetch_subscribed_authors store (.ok (.list l)) =
      match processAuthors l [] [] with
      | (st, dids, true) => (st, dids)
      | (st, _, false) => (st, []) := by
    simp [fetch_subscribed_authors, ht]
  rw [h1, processAuthors_complete l [] [] hok]
  simp

theorem pidOf_truthy (a k : PyVal) (h : pidOf a = some k) : truthy k = true := by
  cases a with
  | dict xs =>
    by_cases hd : (truthy (objGet xs "platform_id" .null) &&
        hashable (objGet xs "platform_id" .null)) = true
    · simp only [pidOf, if_pos hd, Option.some.injEq] at h
      have hand := hd
      simp only [Bool.and_eq_true] at hand
      exact h ▸ hand.1
    · simp [pidOf, hd] at h
  | null => simp [pidOf] at h
  | bool b => simp [pidOf] at h
  | int n => simp [pidOf] at h
  | str s => simp [pidOf] at h
  | list xs => simp [pidOf] at h

theorem storeStep_of_pid_none (init : Roster) (a : PyVal) (h : pidOf a = none) :
    storeStep init a = init := by
  cases a with
  | dict xs =>
    by_cases hd : (truthy (objGet xs "platform_id" .null) &&
        hashable (objGet xs "platform_id" .null)) = true
    · simp [pidOf, hd] at h
    · simp [storeStep, hd]
  | null => rfl
  | bool b => rfl
  | int n => rfl
  | str s => rfl
  | list xs => rfl

theorem storeStep_of_pid_some (init : Roster) (a d : PyVal) (h : pidOf a = some d) :
    storeStep init a = rosterSet init d (recordOf a) := by
  cases a with
  | dict xs =>
    by_cases hd : (truthy (objGet xs "platform_id" .null) &&
        hashable (objGet xs "platform_id" .null)) = true
    · simp only [pidOf, if_pos hd, Option.some.injEq] at h
      subst h
      simp [storeStep, hd, recordOf]
    · simp [pidOf, hd] at h
  | null => simp [pidOf] at h
  | bool b => simp [pidOf] at h
  | int n => simp [pidOf] at h
  | str s => simp [pidOf] at h
  | list xs => simp [pidOf] at h

theorem storeStep_keys_truthy (init : Roster) (a : PyVal)
    (h : ∀ q ∈ init, truthy q.1 = true) : ∀ q ∈ storeStep init a, truthy q.1 = true := by
  intro q hq
  cases hp : pidOf a with
  | none =>
    rw [storeStep_of_pid_none init a hp] at hq
    exact h q hq
  | some d =>
    rw [storeStep_of_pid_some init a d hp] at hq
    rcases mem_rosterSet init d (recordOf a) q hq with rfl | hmem
    · simpa using pidOf_truthy a d hp
    · exact h q hmem

theorem storeOf_keys_truthy (l : List PyVal) :
    ∀ init : Roster, (∀ q ∈ init, truthy q.1 = true) →
      ∀ q ∈ storeOf l init, truthy q.1 = true := by
  induction l with
  | nil => intro init h q hq; exact h q hq
  | cons a rest ih =>
    intro init h q hq
    exact ih (storeStep init a) (storeStep_keys_truthy init a h) q hq

/-- The returned did list contains one element per kept entry occurrence:
its count of any key equals the number of fetched entries carrying that key
as truthy `platform_id`. -/
theorem didsOf_count (l : List PyVal) (k : PyVal) :
    (didsOf l).count k = l.countP (fun a => pidOf a == some k) := by
  induction l with
  | nil => simp [didsOf]
  | cons a rest ih =>
    cases hp : pidOf a with
    | none =>
      have hb : (pidOf a == some k) = false := by simp [hp]
      have hfm : didsOf (a :: rest) = didsOf rest := by
        simp [didsOf, List.filterMap_cons, hp]
      rw [hfm, List.countP_cons, hb, ih]
      simp
    | some d =>
      have hfm : didsOf (a :: rest) = d :: didsOf rest := by
        simp [didsOf, List.filterMap_cons, hp]
      rw [hfm, List.count_cons, List.countP_cons, ih]
      by_cases hdk : d = k
      · subst hdk
        simp [hp]
      · have h1 : (k == d) = false := by simp [Ne.symm hdk]
        have h2 : (pidOf a == some k) = false := by simp [hp, hdk]
        simp [h1, h2, hdk]

/-- Lookup after the author fold: the stored record for a key is the record
of the LAST fetched entry carrying that key (later entries overwrite
earlier ones); keys carried by no entry fall through to the initial
store. -/
theorem storeOf_find (l : List PyVal) :
    ∀ (init : Roster) (k : PyVal),
      rosterGet (storeOf l init) k =
        match (l.reverse).find? (fun a => pidOf a == some k) with
        | some a => some (recordOf a)
        | none => rosterGet init k := by
  induction l with
  | nil => intro init k; simp [storeOf]
  | cons a rest ih =>
    intro init k
    have hsf : storeOf (a :: rest) init = storeOf rest (storeStep init a) := rfl
    rw [hsf, ih, List.reverse_cons, List.find?_append]
    cases hf : List.find? (fun a => pidOf a == some k) rest.reverse with
    | some b => simp [Option.or]
    | none =>
      simp only [Option.none_or]
      cases hpa : pidOf a with
      | none =>
        have hb : (pidOf a == some k) = false := by simp [hpa]
        rw [storeStep_of_pid_none init a hpa]
        simp [List.find?_cons_of_neg, hb]
      | some d =>
        rw [storeStep_of_pid_some init a d hpa, rosterGet_rosterSet]
        by_cases hdk : d = k
        · subst hdk
          have hb : (pidOf a == some d) = true := by simp [hpa]
          simp [List.find?, hb]
        · have hb : (pidOf a == some k) = false := by simp [hpa, hdk]
          simp [List.find?, hb, hdk]

/-! ### Claims about the roster load -/

/-- Counterexample to claim C3 as stated: a fetch whose HTTP request and
JSON decode both succeed but whose decoded array contains a non-dict
element (here the string `oops` between two well-formed author entries)
aborts the loop after the roster dict was already cleared and partially
refilled.  The resulting mapping holds only the first author: it is neither
the prior mapping nor the full set of identity records of the response
(the entry keyed `b` is missing although the response carries it), so the
load is not atomic. -/
theorem C3_counterexample :
    fetch_subscribed_authors [(.str "x", .str "old")]
        (.ok (.list [.dict [("platform_id", .str "a"), ("id", .int 1)],
                     .str "oops",
                     .dict [("platform_id", .str "b"), ("id", .int 2)]])) =
      ([(.str "a", .dict [("id", .int 1), ("name", .null), ("author_context", .null)])],
       []) ∧
    ([(.str "a", .dict [("id", .int 1), ("name", .null), ("author_context", .null)])] : Roster) ≠
      [(.str "x", .str "old")] ∧
    rosterGet
      [(.str "a", .dict [("id", .int 1), ("name", .null), ("author_context", .null)])]
      (.str "b") = none ∧
    pidOf (.dict [("platform_id", .str "b"), ("id", .int 2)]) = some (.str "b") :=
  ⟨by decide, by decide, by decide, by decide⟩

/-- Claim C3 (amended): the roster load replaces the mapping atomically in
the following cases — on transport, HTTP status or decode failure, and on a
falsy (in particular empty) decoded result, the mapping is unchanged and
the returned key list empty; and when the decoded response is a non-empty
list of objects in which every truthy `platform_id` is hashable, the
mapping is replaced wholesale by exactly the records of that response,
independent of the prior state.  (As the counterexample shows, a decodable
response containing a non-object element can still leave a partially
updated mapping; a truthy unhashable `platform_id`, which raises
`TypeError` at the dict assignment of line 50, does the same.) -/
theorem C3_amended_atomic_replacement :
    (∀ store : Roster,
       fetch_subscribed_authors store .transportError = (store, []) ∧
       fetch_subscribed_authors store .statusError = (store, []) ∧
       fetch_subscribed_authors store .decodeError = (store, []) ∧
       ∀ v, truthy v = false → fetch_subscribed_authors store (.ok v) = (store, [])) ∧
    (∀ (store : Roster) (l : List PyVal), (∀ a ∈ l, entryOk a = true) → l ≠ [] →
       fetch_subscribed_authors store (.ok (.list l)) = (storeOf l [], didsOf l)) := by
  constructor
  · intro store
    refine ⟨rfl, rfl, rfl, fun v hv => ?_⟩
    simp [fetch_subscribed_authors, hv]
  · intro store l hok hne
    exact fetch_ok_list store l hok hne

/-- Witness for the amended C3: a well-formed single-author response fully
replaces a prior roster. -/
theorem C3_witness :
    fetch_subscribed_authors [(.str "x", .str "old")]
        (.ok (.list [.dict [("platform_id", .str "a"), ("id", .int 1)]])) =
      (storeOf [.dict [("platform_id", .str "a"), ("id", .int 1)]] [],
       didsOf [.dict [("platform_id", .str "a"), ("id", .int 1)]]) :=
  C3_amended_atomic_replacement.2 [(.str "x", .str "old")] _ (by decide) (by decide)

/-- Claim C10: for a fetched author list the loop processes to completion
(a non-empty list of dicts whose truthy `platform_id` values are hashable —
on an unhashable one the dict assignment at line 50 raises, the fetch
returns `[]` and the mapping is left partial, see the C3 analysis), entries
whose `platform_id` is absent or an empty string (more generally, falsy)
are excluded from both the roster mapping and the returned subscription
key list: every returned did and every mapping key is a truthy
`platform_id` of some entry.  When several entries share a `platform_id`,
the mapping holds the record of the last such entry (later overwrites
earlier), while the returned key list contains the key once per
occurrence. -/
theorem C10_entry_filtering_and_overwrite (store : Roster) (l : List PyVal)
    (hok : ∀ a ∈ l, entryOk a = true) (hne : l ≠ []) :
    fetch_subscribed_authors store (.ok (.list l)) = (storeOf l [], didsOf l) ∧
    (∀ k ∈ didsOf l, truthy k = true ∧ ∃ a ∈ l, pidOf a = some k) ∧
    (∀ q ∈ storeOf l [], truthy q.1 = true) ∧
    (∀ k : PyVal, (didsOf l).count k = l.countP (fun a => pidOf a == some k)) ∧
    (∀ k : PyVal, rosterGet (storeOf l []) k =
       match (l.reverse).find? (fun a => pidOf a == some k) with
       | some a => some (recordOf a)
       | none => none) := by
  refine ⟨fetch_ok_list store l hok hne, ?_, ?_, didsOf_count l, ?_⟩
  · intro k hk
    rcases List.mem_filterMap.mp hk with ⟨a, ha, hpa⟩
    exact ⟨pidOf_truthy a k hpa, a, ha, hpa⟩
  · exact storeOf_keys_truthy l [] (by simp)
  · intro k
    exact storeOf_find l [] k

/-- Witness for C10: a list with a duplicate `platform_id`, an entry
missing it, and an entry with an empty one — the duplicate key is returned
twice, the mapping keeps the later record, the falsy entries vanish. -/
theorem C10_witness :
    fetch_subscribed_authors []
        (.ok (.list [.dict [("platform_id", .str "a"), ("id", .int 1)],
                     .dict [("id", .int 3)],
                     .dict [("platform_id", .str ""), ("id", .int 4)],
                     .dict [("platform_id", .str "a"), ("id", .int 2)]])) =
      (storeOf [.dict [("platform_id", .str "a"), ("id", .int 1)],
                .dict [("id", .int 3)],
                .dict [("platform_id", .str ""), ("id", .int 4)],
                .dict [("platform_id", .str "a"), ("id", .int 2)]] [],
       didsOf [.dict [("platform_id", .str "a"), ("id", .int 1)],
               .dict [("id", .int 3)],
               .dict [("platform_id", .str ""), ("id", .int 4)],
               .dict [("platform_id", .str "a"), ("id", .int 2)]]) :=
  (C10_entry_filtering_and_overwrite [] _ (by decide) (by decide)).1
